import Mathlib

set_option maxRecDepth 16384

/-!
Verification of the file-ingestion and answer-synthesis pipeline of the
ChatBot server (source: the controller file defining `extractTextFromPdf`,
`extractText`, `tesseractOcr` and `askWithFiles`).

Modelling conventions, used uniformly below:
* Node `Buffer`s are byte lists (`List Nat`, each entry < 256).
* JavaScript strings are Lean `String`s; the JS string operations used by the
  source (`split`, `toLowerCase`, `trim`, `slice`, `join`, template literals)
  are re-implemented structurally over `String.data` so that they compute.
  JS `.slice` counts UTF-16 code units while we count code points; the two
  agree on all BMP text, which covers every literal the source manipulates.
* Results of the external libraries that the source invokes on a file's bytes
  (pdf-parse, mammoth, xlsx, the OCR.Space HTTP call, tesseract.js, the
  Gemini HTTP call) are deterministic functions of the bytes and the network
  state; they are supplied to the model as explicit oracle values (`ExtResult`
  fields), one per call site.  A JS exception thrown by a library is the
  `err` constructor carrying `err.message`.
* A JS `x || y` default on strings maps `""`/absent to the default (falsiness),
  modelled by `jsOrStr` / `jsOrNull`.
-/

/-- Outcome of a call into an external JS library: normal return value or a
thrown exception carrying its message. -/
inductive ExtResult (α : Type) where
  | ok (val : α)
  | err (msg : String)
deriving DecidableEq, Repr

/-- JS `Array.prototype.join(sep)` on a list of strings. -/
def jsJoin (sep : String) : List String → String
  | [] => ""
  | [x] => x
  | x :: y :: xs => x ++ sep ++ jsJoin sep (y :: xs)

/-- The WhiteSpace/LineTerminator character class trimmed by JS
`String.prototype.trim`. -/
def isJsWs (c : Char) : Bool :=
  c ∈ [' ', '\t', '\n', '\r', '\x0b', '\x0c', Char.ofNat 0xa0, Char.ofNat 0x1680,
    Char.ofNat 0x2000, Char.ofNat 0x2001, Char.ofNat 0x2002, Char.ofNat 0x2003,
    Char.ofNat 0x2004, Char.ofNat 0x2005, Char.ofNat 0x2006, Char.ofNat 0x2007,
    Char.ofNat 0x2008, Char.ofNat 0x2009, Char.ofNat 0x200a, Char.ofNat 0x2028,
    Char.ofNat 0x2029, Char.ofNat 0x202f, Char.ofNat 0x205f, Char.ofNat 0x3000,
    Char.ofNat 0xfeff]

/-- JS `String.prototype.trim`: strip leading and trailing whitespace. -/
def jsTrim (s : String) : String :=
  ⟨(((s.data.dropWhile isJsWs).reverse.dropWhile isJsWs).reverse : List Char)⟩

/-- JS `String.prototype.slice(0, n)`. -/
def jsSlice (s : String) (n : Nat) : String := ⟨s.data.take n⟩

/-- JS `s.split(sep)` for a one-character separator, over char lists. -/
def jsSplitChar (sep : Char) : List Char → List (List Char)
  | [] => [[]]
  | c :: rest =>
    if c = sep then [] :: jsSplitChar sep rest
    else
      match jsSplitChar sep rest with
      | [] => [[c]]
      | x :: xs => (c :: x) :: xs

/-- JS `String.prototype.toLowerCase` (ASCII range, which is all the source
compares against). -/
def jsToLower (s : String) : String := ⟨s.data.map Char.toLower⟩

/-- JS string default `o || d` where `o` is a possibly-absent string: both
`null`/`undefined` and `""` are falsy and select the default. -/
def jsOrStr (o : Option String) (d : String) : String :=
  match o with
  | some s => if s = "" then d else s
  | none => d

/-- JS `o || null` on a possibly-absent string: `""` collapses to `null`. -/
def jsOrNull (o : Option String) : Option String :=
  match o with
  | some s => if s = "" then none else some s
  | none => none

/-- Bytes of a Node `Buffer`. -/
abbrev Bytes := List Nat

/-- A UTF-8 continuation byte. -/
def isCont (b : Nat) : Bool := 0x80 ≤ b && b < 0xc0

/-- A Unicode scalar value (what `Char` can hold). -/
def validCp (n : Nat) : Bool := n < 0x110000 && !(0xd800 ≤ n && n ≤ 0xdfff)

/-- The U+FFFD replacement character emitted for malformed UTF-8. -/
def replChar : Char := Char.ofNat 0xfffd

/-- Node `buffer.toString("utf8")`, fuelled by the byte count.  Exact on
well-formed UTF-8 (which includes all inputs the claims exercise); malformed
sequences decode to U+FFFD with approximated replacement granularity. -/
def utf8DecodeAux : Nat → List Nat → List Char
  | 0, _ => []
  | _ + 1, [] => []
  | fuel + 1, b :: rest =>
    if b < 0x80 then Char.ofNat b :: utf8DecodeAux fuel rest
    else if 0xc2 ≤ b && b ≤ 0xdf then
      match rest with
      | c1 :: r1 =>
        if isCont c1 then
          Char.ofNat ((b % 0x20) * 0x40 + c1 % 0x40) :: utf8DecodeAux fuel r1
        else replChar :: utf8DecodeAux fuel rest
      | [] => [replChar]
    else if 0xe0 ≤ b && b ≤ 0xef then
      match rest with
      | c1 :: c2 :: r2 =>
        if isCont c1 && isCont c2 then
          let cp := (b % 0x10) * 0x1000 + (c1 % 0x40) * 0x40 + c2 % 0x40
          (if validCp cp then Char.ofNat cp else replChar) :: utf8DecodeAux fuel r2
        else replChar :: utf8DecodeAux fuel rest
      | _ => [replChar]
    else if 0xf0 ≤ b && b ≤ 0xf4 then
      match rest with
      | c1 :: c2 :: c3 :: r3 =>
        if isCont c1 && isCont c2 && isCont c3 then
          let cp := (b % 8) * 0x40000 + (c1 % 0x40) * 0x1000 + (c2 % 0x40) * 0x40 + c3 % 0x40
          (if validCp cp then Char.ofNat cp else replChar) :: utf8DecodeAux fuel r3
        else replChar :: utf8DecodeAux fuel rest
      | _ => [replChar]
    else replChar :: utf8DecodeAux fuel rest

/-- Node `buffer.toString("utf8")`. -/
def utf8Decode (bs : Bytes) : String := ⟨utf8DecodeAux bs.length bs⟩

/-- The base64 alphabet. -/
def b64Char (n : Nat) : Char :=
  "ABCDEFGHIJKLMNOPQRSTUVWXYZabcdefghijklmnopqrstuvwxyz0123456789+/".data.getD n 'A'

/-- RFC 4648 encoding of a byte triple stream. -/
def base64Aux : List Nat → List Char
  | [] => []
  | [a] => [b64Char (a / 4), b64Char (a % 4 * 16), '=', '=']
  | [a, b] => [b64Char (a / 4), b64Char (a % 4 * 16 + b / 16), b64Char (b % 16 * 4), '=']
  | a :: b :: c :: rest =>
    b64Char (a / 4) :: b64Char (a % 4 * 16 + b / 16) ::
      b64Char (b % 16 * 4 + c / 64) :: b64Char (c % 64) :: base64Aux rest

/-- Node `buffer.toString("base64")`. -/
def base64Encode (bs : Bytes) : String := ⟨base64Aux bs⟩

/-! ## PDF extractor (`extractTextFromPdf`) -/

/-- Oracle for `await pdfParse(buffer)`: the text and page count the library
yields on these bytes, or the message of the exception it throws.  The
source reads the fields through optional chaining with `|| 0` defaults
(`data?.text?.length || 0`, `data?.numpages || 0`), so an absent `text` field
coincides with `text = ""` and an absent page count with `0`; the oracle
carries the already-defaulted values. -/
inductive PdfParseOutcome where
  | ok (text : String) (numpages : Nat)
  | err (msg : String)
deriving DecidableEq, Repr

/-- Result object of `extractTextFromPdf`. -/
structure PdfResult where
  text : String
  isScanned : Bool
  pages : Nat
  info : Option String
deriving DecidableEq, Repr

/-- The diagnostic `info` string attached to a scanned (zero-text) PDF. -/
def scannedPdfInfo : String :=
  "This appears to be a scanned PDF or image-based PDF. No text could be extracted automatically. Consider uploading as images instead for better analysis."

/-- The source computes `buffer.slice(0, 4).toString()` and tests
`startsWith("%PDF")`.  A UTF-8 decode of at most four bytes starts with the
four ASCII characters `%PDF` exactly when the first four bytes are `%PDF`,
so the check reduces to a byte comparison. -/
def hasPdfSignature (b : Bytes) : Bool := b.take 4 == [0x25, 0x50, 0x44, 0x46]

/-- `extractTextFromPdf(buffer)`.  The whole body sits in a `try` whose
`catch` rethrows `PDF parsing failed: ` ++ the original message, so every
failure (empty buffer, missing signature, parser exception) surfaces with
that prefix. -/
def extractTextFromPdf (buffer : Bytes) (parse : PdfParseOutcome) :
    ExtResult PdfResult :=
  if buffer.length = 0 then
    .err "PDF parsing failed: Empty or invalid buffer"
  else if ¬ hasPdfSignature buffer then
    .err "PDF parsing failed: File does not appear to be a valid PDF (missing %PDF header)"
  else
    match parse with
    | .err m => .err ("PDF parsing failed: " ++ m)
    | .ok text pages =>
      if text.length = 0 then
        .ok { text := "", isScanned := true, pages := pages, info := some scannedPdfInfo }
      else
        .ok { text := text, isScanned := false, pages := pages, info := none }

/-! ## OCR fallback chain (`extractText`, `tesseractOcr`) -/

/-- Oracle for `Tesseract.recognize(buffer, "eng")`: the recognised text
(`data.text`, already defaulted through `text || ""` for an absent field), or
the thrown message. -/
abbrev TessOutcome := ExtResult String

/-- `tesseractOcr(buffer)`: local OCR; returns `""` when the engine throws. -/
def tesseractOcr (outcome : TessOutcome) : String :=
  match outcome with
  | .ok text => text
  | .err _ => ""

/-- Parsed JSON body of the OCR.Space response.  `ParsedResults` carries the
`ParsedText` of each entry (the source maps `p => p.ParsedText` and joins);
`none` covers an absent/null field, which the guard
`data && data.ParsedResults && data.ParsedResults[0]` rejects. -/
structure OcrSpaceResponse where
  ParsedResults : Option (List String)
  ErrorMessage : Option String
deriving DecidableEq, Repr

/-- `extractText(buffer, filename)`: hosted OCR.Space attempt with
tesseract.js fallback.  `hosted` is the oracle for the fetch + `res.json()`
round trip (its `err` covers transport errors and malformed JSON, both caught
by the source's `catch`); `tess` the oracle for the local engine.  The
`_buffer`/`_filename` arguments only feed the network call the oracle
replaces. -/
def extractText (apiKey : Option String) (_buffer : Bytes) (_filename : String)
    (hosted : ExtResult OcrSpaceResponse) (tess : TessOutcome) : String :=
  match apiKey with
  | none => tesseractOcr tess
  | some _ =>
    match hosted with
    | .err _ => tesseractOcr tess
    | .ok data =>
      match data.ParsedResults with
      | some (p :: ps) =>
        let text := jsJoin "\n" (p :: ps)
        if text ≠ "" ∧ (jsTrim text).length > 0 then text
        else tesseractOcr tess
      | _ => tesseractOcr tess

example : jsTrim "  ab c \n" = "ab c" := by decide
example : jsTrim " \t " = "" := by decide
example : jsSlice "hello" 2 = "he" := by decide
example : jsJoin "; " ["a", "b", "c"] = "a; b; c" := by decide
example : utf8Decode [104, 101, 108, 108, 111, 32, 119, 111, 114, 108, 100] = "hello world" := by
  decide
example : base64Encode [77, 97, 110] = "TWFu" := by decide
example : base64Encode [77, 97] = "TWE=" := by decide
example : hasPdfSignature [0x25, 0x50, 0x44, 0x46, 0x2d] = true := by decide
example : hasPdfSignature [1, 2, 3, 4] = false := by decide
example :
    extractTextFromPdf [] (.ok "x" 1) = .err "PDF parsing failed: Empty or invalid buffer" := by
  decide
example :
    extractTextFromPdf [0x25, 0x50, 0x44, 0x46] (.ok "" 3) =
      .ok { text := "", isScanned := true, pages := 3, info := some scannedPdfInfo } := by
  decide
example : extractText none [] "f" (.err "x") (.ok "t") = "t" := by decide
example :
    extractText (some "k") [] "f" (.ok ⟨some ["a", "b"], none⟩) (.err "x") = "a\nb" := by
  decide
example : extractText (some "k") [] "f" (.ok ⟨some [" "], none⟩) (.ok "loc") = "loc" := by decide

/-! ## Per-file extraction orchestrator (`askWithFiles` loop body) -/

/-- One uploaded multipart file as the handler sees it.  `name` is the
resolved `f.originalname || f.filename || "file"` (multer memory storage
always supplies `originalname` and `buffer`).  The last three fields are the
oracles for the external extraction libraries applied to `buffer`:
`pdf` for `pdfParse`, `docx` for `mammoth.extractRawText` (carrying
`result.value` defaulted through `|| ""`), `xlsx` for
`XLSX.read` + per-sheet `sheet_to_csv` (the CSV of each sheet, in
`SheetNames` order). -/
structure UploadedFile where
  name : String
  buffer : Bytes
  pdf : PdfParseOutcome
  docx : ExtResult String
  xlsx : ExtResult (List String)
deriving DecidableEq, Repr

/-- `(name.split(".").pop() || "").toLowerCase()`.  JS `split` on a nonempty
separator always yields at least one element, so `pop` is the last chunk. -/
def extOf (name : String) : String :=
  jsToLower ⟨(jsSplitChar '.' name.data).getLast?.getD []⟩

/-- The image-extension whitelist of the dispatch branch. -/
def imageExts : List String := ["jpg", "jpeg", "png", "webp", "tif", "tiff", "bmp", "gif"]

/-- The `mimeTypes` table with its `|| "image/jpeg"` fallback. -/
def mimeFor (ext : String) : String :=
  if ext = "jpg" then "image/jpeg"
  else if ext = "jpeg" then "image/jpeg"
  else if ext = "png" then "image/png"
  else if ext = "webp" then "image/webp"
  else if ext = "gif" then "image/gif"
  else if ext = "tif" then "image/tiff"
  else if ext = "tiff" then "image/tiff"
  else if ext = "bmp" then "image/bmp"
  else "image/jpeg"

/-- An entry of `parts`: the per-file extraction record. -/
structure FilePart where
  name : String
  ext : String
  text : String
  size : Nat
  error : Option String
deriving DecidableEq, Repr

/-- An entry of `imageParts`, bound for the Gemini Vision payload. -/
structure ImagePart where
  name : String
  mimeType : String
  data : String
deriving DecidableEq, Repr

/-- The placeholder text recorded for an image-classified file. -/
def imagePlaceholder (name : String) : String :=
  "[Image: " ++ name ++ " - will be analyzed by AI vision]"

/-- One iteration of the `for (const f of files)` loop: dispatch on the
extension, catch any thrown extraction error into the record's `error`, and
optionally emit an `ImagePart`.  Mirrors the source's branch order
(pdf, docx, xlsx, txt/html, image list, unsupported). -/
def processFile (f : UploadedFile) : FilePart × Option ImagePart :=
  let attempt : ExtResult (String × Option String × Option ImagePart) :=
    if extOf f.name = "pdf" then
      match extractTextFromPdf f.buffer f.pdf with
      | .err e => .err e
      | .ok r => .ok (r.text, if r.isScanned then r.info else none, none)
    else if extOf f.name = "docx" then
      match f.docx with
      | .err e => .err e
      | .ok v => .ok (v, none, none)
    else if extOf f.name = "xlsx" then
      match f.xlsx with
      | .err e => .err e
      | .ok sheets => .ok (jsJoin "\n" sheets, none, none)
    else if extOf f.name = "txt" ∨ extOf f.name = "html" then
      if f.buffer.length = 0 then .err "Empty or invalid buffer for text file"
      else .ok (utf8Decode f.buffer, none, none)
    else if imageExts.contains (extOf f.name) then
      .ok (imagePlaceholder f.name, none,
        some ⟨f.name, mimeFor (extOf f.name), base64Encode f.buffer⟩)
    else
      .ok ("", none, none)
  match attempt with
  | .ok (text, exErr, img) =>
    (⟨f.name, extOf f.name, text, f.buffer.length, exErr⟩, img)
  | .err e => (⟨f.name, extOf f.name, "", f.buffer.length, some e⟩, none)

/-- The `parts` list accumulated by the loop, in input order. -/
def partsOf (files : List UploadedFile) : List FilePart :=
  (files.map processFile).map Prod.fst

/-- The `imageParts` list accumulated by the loop, in input order. -/
def imagePartsOf (files : List UploadedFile) : List ImagePart :=
  (files.map processFile).filterMap Prod.snd

/-! ## Context aggregator -/

/-- The filter `p.text && p.text.trim().length > 0`. -/
def keepPart (p : FilePart) : Bool :=
  decide (p.text ≠ "") && decide ((jsTrim p.text).length > 0)

/-- The per-part header of an aggregated segment. -/
def headerOf (p : FilePart) : String := "--- " ++ p.name ++ " (" ++ p.ext ++ ") ---\n"

/-- One aggregated segment: header plus `p.text.slice(0, 20000)`. -/
def segmentOf (p : FilePart) : String := headerOf p ++ jsSlice p.text 20000

/-- The `combined` context: filter, truncate + header, join on blank lines. -/
def combinedOf (ps : List FilePart) : String :=
  jsJoin "\n\n" ((ps.filter keepPart).map segmentOf)

/-! ## Response assembly and answer synthesis -/

/-- An entry of the response's `files` array.  `textLength` is
`p.text ? p.text.length : 0`, which equals `p.text.length` since `""` has
length 0; `error` is `p.error || null`. -/
structure FileSummary where
  name : String
  type : String
  size : Nat
  textLength : Nat
  error : Option String
deriving DecidableEq, Repr

/-- Projection of a `FilePart` into the response's `files` array. -/
def summarize (p : FilePart) : FileSummary :=
  ⟨p.name, p.ext, p.size, p.text.length, jsOrNull p.error⟩

/-- The JSON body returned on the 200 paths. -/
structure Response where
  extracted : String
  answer : Option String
  files : List FileSummary
  error : Option String
deriving DecidableEq, Repr

/-- The initial `response` object built after the loop. -/
def baseResponse (files : List UploadedFile) : Response :=
  { extracted := combinedOf (partsOf files)
    answer := none
    files := (partsOf files).map summarize
    error := none }

/-- `(p.size / 1024).toFixed(1)`.  `size / 1024` is exact in a binary double
(power-of-two denominator), so `toFixed(1)` is round-half-up of
`10 * size / 1024` rendered with one decimal. -/
def kbString (size : Nat) : String :=
  toString ((10 * size + 512) / 1024 / 10) ++ "." ++ toString ((10 * size + 512) / 1024 % 10)

/-- The `errorDetails` summary joined with `"; "`. -/
def errorDetailsOf (parts : List FilePart) : String :=
  jsJoin "; " (parts.map fun p => p.name ++ ": " ++ jsOrStr p.error "Unknown error")

/-- The synthesized no-content answer.  The source's file-analysis line reads
`p.type`, a field the `parts` records do not have (they store the extension
under `ext`), so the template literal renders the literal string
`undefined` in the type slot. -/
def noContentAnswer (parts : List FilePart) : String :=
  "I couldn\x27t extract any readable content from the uploaded files. This might be because:\n\n1. **Scanned PDF**: The PDF contains images/scans rather than selectable text\n2. **Encrypted PDF**: The PDF is password protected or encrypted\n3. **Corrupted file**: The file may be damaged\n4. **Unsupported format**: The file format isn\x27t supported for text extraction\n\nFile analysis:\n"
    ++ jsJoin "\n"
      (parts.map fun p =>
        "• " ++ p.name ++ " (undefined, " ++ kbString p.size ++ "KB): "
          ++ jsOrStr p.error "No text found")
    ++ "\n\nFor scanned PDFs, you might need to use OCR (Optical Character Recognition) tools to extract the text first."

/-- The three-way prompt framing selected from the aggregated state. -/
inductive PromptMode where
  | imageOnly
  | mixed
  | textOnly
  | bare
deriving DecidableEq, Repr

/-- The `if`-chain over `imageParts.length > 0` and `combined.trim()`
choosing the prompt framing (`bare` is the unreachable no-content default,
kept for fidelity). -/
def promptModeOf (imageParts : List ImagePart) (combined : String) : PromptMode :=
  if decide (imageParts.length > 0) && (jsTrim combined == "") then .imageOnly
  else if decide (imageParts.length > 0) && !(jsTrim combined == "") then .mixed
  else if !(jsTrim combined == "") then .textOnly
  else .bare

/-- The full `promptText` sent to Gemini. -/
def buildPromptText (question combined : String) (imageParts : List ImagePart) :
    String :=
  (match promptModeOf imageParts combined with
    | .imageOnly =>
      "I have uploaded " ++ toString imageParts.length
        ++ " image(s) for analysis. Please examine them carefully and answer my question.\n\n"
    | .mixed =>
      "I have uploaded files with both text and images:\n\n" ++ combined
        ++ "\n\nI have also uploaded " ++ toString imageParts.length
        ++ " image(s). Please analyze everything carefully.\n\n"
    | .textOnly =>
      "I have uploaded the following files with extracted text:\n\n" ++ combined ++ "\n\n"
    | .bare => "")
    ++ "Question: " ++ question
    ++ "\n\nPlease provide a detailed and accurate answer based on the uploaded content. For math problems in images, transcribe the problem first, then show step-by-step solutions with proper formatting. For images with diagrams or handwriting, describe what you see before answering."

/-- The outbound Gemini request: the prompt text part followed by one inline
image part per collected `ImagePart`, in aggregation order.  (The fixed
generation parameters — temperature 0.4, topK 32, topP 1, maxOutputTokens
8192 — are constants of the call site and carry no claim-relevant state.) -/
structure GeminiRequest where
  promptText : String
  images : List ImagePart
deriving DecidableEq, Repr

/-- Server configuration read from the environment. -/
structure Config where
  geminiKey : Option String
deriving DecidableEq, Repr

/-- Oracle for the Gemini round trip: `ok` carries
`data?.candidates?.[0]?.content?.parts?.[0]?.text` (`none` for any missing
link of the chain); `err` a thrown transport/HTTP error message. -/
abbrev GeminiOutcome := ExtResult (Option String)

/-- Outcome of one `askWithFiles` invocation.  `success` is a 200 `res.json`;
`badRequest` the 400 for an empty file list; `serverError` the 500 built in
the top-level `catch`.  The `request` component records the Gemini call made
(`none` = no outbound call was attempted). -/
inductive AskOutcome where
  | badRequest (error : String)
  | success (resp : Response) (request : Option GeminiRequest)
  | serverError (error : String) (details : String) (request : Option GeminiRequest)
deriving DecidableEq, Repr

/-- `hasContent`: `combined.trim().length > 0 || imageParts.length > 0`. -/
def hasContentOf (combined : String) (imageParts : List ImagePart) : Bool :=
  decide ((jsTrim combined).length > 0) || decide (imageParts.length > 0)

/-- The `askWithFiles` handler.  `question` is the resolved
`req.body.question || ""`; `gemini` the oracle for the `axios.post` to the
Gemini endpoint (consulted only if the call is reached). -/
def askWithFiles (cfg : Config) (files : List UploadedFile) (question : String)
    (gemini : GeminiOutcome) : AskOutcome :=
  if files.length = 0 then .badRequest "No files uploaded"
  else
    match cfg.geminiKey with
    | none => .success (baseResponse files) none
    | some _ =>
      if hasContentOf (combinedOf (partsOf files)) (imagePartsOf files) then
        match gemini with
        | .err msg =>
          .serverError "Failed to process files" msg
            (some ⟨buildPromptText question (combinedOf (partsOf files)) (imagePartsOf files),
              imagePartsOf files⟩)
        | .ok textResp =>
          .success { baseResponse files with answer := jsOrNull textResp }
            (some ⟨buildPromptText question (combinedOf (partsOf files)) (imagePartsOf files),
              imagePartsOf files⟩)
      else
        .success
          { baseResponse files with
            answer := some (noContentAnswer (partsOf files))
            error := some ("No content could be extracted from the uploaded files. Details: "
              ++ errorDetailsOf (partsOf files)) }
          none

example : extOf "file.txt" = "txt" := by decide
example : extOf "A.PDF" = "pdf" := by decide
example : extOf "noext" = "noext" := by decide
example : extOf "a.b.JPeG" = "jpeg" := by decide
example : kbString 0 = "0.0" := by decide
example : kbString 2048 = "2.0" := by decide
example : kbString 256 = "0.3" := by decide
example :
    (processFile ⟨"cat.jpg", [1], .err "u", .err "u", .err "u"⟩).1.text =
      imagePlaceholder "cat.jpg" := by decide
example :
    (processFile ⟨"a.txt", [104, 105], .err "u", .err "u", .err "u"⟩).1.text = "hi" := by decide

/-! ## Supporting lemmas -/

theorem jsTrim_eq_empty_iff (s : String) :
    jsTrim s = "" ↔ ∀ c ∈ s.data, isJsWs c = true := by
  constructor
  · intro h c hc
    have hd : (((s.data.dropWhile isJsWs).reverse.dropWhile isJsWs).reverse : List Char) = [] :=
      congrArg String.data h
    rw [List.reverse_eq_nil_iff, List.dropWhile_eq_nil_iff] at hd
    have hc' : c ∈ s.data.takeWhile isJsWs ++ s.data.dropWhile isJsWs := by
      rwa [List.takeWhile_append_dropWhile]
    rcases List.mem_append.mp hc' with h1 | h1
    · exact List.mem_takeWhile_imp h1
    · exact hd c (List.mem_reverse.mpr h1)
  · intro h
    apply String.ext
    show (((s.data.dropWhile isJsWs).reverse.dropWhile isJsWs).reverse : List Char) = []
    rw [List.reverse_eq_nil_iff, List.dropWhile_eq_nil_iff]
    intro x hx
    exact h x ((List.dropWhile_sublist isJsWs).subset (List.mem_reverse.mp hx))

theorem keepPart_iff (p : FilePart) : keepPart p = true ↔ jsTrim p.text ≠ "" := by
  unfold keepPart
  rw [Bool.and_eq_true, decide_eq_true_eq, decide_eq_true_eq]
  constructor
  · rintro ⟨-, h2⟩ he
    rw [he] at h2
    exact absurd h2 (by decide)
  · intro h
    refine ⟨fun he => h (by rw [he]; rfl), ?_⟩
    have hd : (jsTrim p.text).data ≠ [] := fun hd => h (String.ext hd)
    show 0 < (jsTrim p.text).data.length
    exact List.length_pos.mpr hd

theorem jsJoin_cons_data (sep x : String) (xs : List String) :
    ∃ t, (jsJoin sep (x :: xs)).data = x.data ++ t := by
  cases xs with
  | nil => exact ⟨[], by simp [jsJoin]⟩
  | cons y ys =>
    exact ⟨sep.data ++ (jsJoin sep (y :: ys)).data, by
      simp [jsJoin, String.data_append, List.append_assoc]⟩

theorem dash_mem_segmentOf (q : FilePart) : '-' ∈ (segmentOf q).data := by
  unfold segmentOf headerOf
  simp only [String.data_append, List.mem_append]
  exact Or.inl (Or.inl (Or.inl (Or.inl (Or.inl (by decide)))))

theorem combinedOf_eq_empty_iff (ps : List FilePart) :
    combinedOf ps = "" ↔ ∀ p ∈ ps, jsTrim p.text = "" := by
  unfold combinedOf
  constructor
  · intro h p hp
    by_contra hne
    have hk : keepPart p = true := (keepPart_iff p).mpr hne
    have hmem : p ∈ ps.filter keepPart := List.mem_filter.mpr ⟨hp, hk⟩
    obtain ⟨q, qs, hq⟩ : ∃ q qs, ps.filter keepPart = q :: qs := by
      cases hf : ps.filter keepPart with
      | nil => rw [hf] at hmem; cases hmem
      | cons q qs => exact ⟨q, qs, rfl⟩
    rw [hq, List.map_cons] at h
    obtain ⟨t, ht⟩ := jsJoin_cons_data "\n\n" (segmentOf q) (qs.map segmentOf)
    have hd : (segmentOf q).data ++ t = [] := by
      rw [← ht]
      exact congrArg String.data h
    rcases List.append_eq_nil.mp hd with ⟨h1, -⟩
    exact List.ne_nil_of_mem (dash_mem_segmentOf q) h1
  · intro h
    have hnil : ps.filter keepPart = [] := by
      rw [List.filter_eq_nil_iff]
      intro p hp hk
      exact (keepPart_iff p).mp hk (h p hp)
    rw [hnil]
    rfl

theorem jsTrim_combinedOf_ne_empty (ps : List FilePart) (p : FilePart)
    (hp : p ∈ ps) (hne : jsTrim p.text ≠ "") : jsTrim (combinedOf ps) ≠ "" := by
  intro h
  rw [jsTrim_eq_empty_iff] at h
  have hk : keepPart p = true := (keepPart_iff p).mpr hne
  have hmem : p ∈ ps.filter keepPart := List.mem_filter.mpr ⟨hp, hk⟩
  obtain ⟨q, qs, hq⟩ : ∃ q qs, ps.filter keepPart = q :: qs := by
    cases hf : ps.filter keepPart with
    | nil => rw [hf] at hmem; cases hmem
    | cons q qs => exact ⟨q, qs, rfl⟩
  obtain ⟨t, ht⟩ := jsJoin_cons_data "\n\n" (segmentOf q) (qs.map segmentOf)
  have hdash : '-' ∈ (combinedOf ps).data := by
    unfold combinedOf
    rw [hq, List.map_cons, ht]
    exact List.mem_append.mpr (Or.inl (dash_mem_segmentOf q))
  exact absurd (h '-' hdash) (by decide)

theorem files_of_success (cfg : Config) (files : List UploadedFile) (question : String)
    (gemini : GeminiOutcome) (r : Response) (req : Option GeminiRequest)
    (h : askWithFiles cfg files question gemini = .success r req) :
    r.files = files.map (fun f => summarize (processFile f).1) := by
  unfold askWithFiles at h
  split at h
  · simp at h
  · split at h
    · obtain ⟨h1, -⟩ := AskOutcome.success.injEq .. |>.mp h
      subst h1
      simp [baseResponse, partsOf, List.map_map, Function.comp]
    · split at h
      · split at h
        · simp at h
        · obtain ⟨h1, -⟩ := AskOutcome.success.injEq .. |>.mp h
          subst h1
          simp [baseResponse, partsOf, List.map_map, Function.comp]
      · obtain ⟨h1, -⟩ := AskOutcome.success.injEq .. |>.mp h
        subst h1
        simp [baseResponse, partsOf, List.map_map, Function.comp]

/-! ## Claims -/

/-- C1: for every list of uploaded files processed by `askWithFiles`, the
response's `files` array has exactly one entry per uploaded file, in input
order: entry `i` is the summary of the record produced for input file `i`. -/
theorem askWithFiles_files_one_per_input (cfg : Config) (files : List UploadedFile)
    (question : String) (gemini : GeminiOutcome) (r : Response) (req : Option GeminiRequest)
    (h : askWithFiles cfg files question gemini = .success r req) :
    r.files = files.map (fun f => summarize (processFile f).1) ∧
      r.files.length = files.length := by
  have hf := files_of_success cfg files question gemini r req h
  exact ⟨hf, by rw [hf, List.length_map]⟩

/-- Witness for C1 at a concrete one-file upload. -/
theorem askWithFiles_files_one_per_input_witness :
    (⟨"", none, [⟨"a.bin", "bin", 1, 0, none⟩], none⟩ : Response).files =
        [(⟨"a.bin", [0], .err "e", .err "e", .err "e"⟩ : UploadedFile)].map
          (fun f => summarize (processFile f).1) ∧
      (⟨"", none, [⟨"a.bin", "bin", 1, 0, none⟩], none⟩ : Response).files.length =
        [(⟨"a.bin", [0], .err "e", .err "e", .err "e"⟩ : UploadedFile)].length :=
  askWithFiles_files_one_per_input ⟨none⟩ [⟨"a.bin", [0], .err "e", .err "e", .err "e"⟩]
    "" (.ok none) ⟨"", none, [⟨"a.bin", "bin", 1, 0, none⟩], none⟩ none (by decide)

/-- C5: with no Gemini credential configured, the handler returns the
aggregated text with a null `answer` and attempts no outbound call (the
result carries no request and is independent of the Gemini oracle). -/
theorem askWithFiles_no_key_extraction_only (cfg : Config) (files : List UploadedFile)
    (question : String) (gemini : GeminiOutcome)
    (hkey : cfg.geminiKey = none) (hne : files ≠ []) :
    askWithFiles cfg files question gemini =
      .success
        { extracted := combinedOf (partsOf files), answer := none,
          files := (partsOf files).map summarize, error := none } none := by
  have h0 : ¬ files.length = 0 := fun h => hne (List.length_eq_zero.mp h)
  unfold askWithFiles
  rw [if_neg h0, hkey]
  rfl

/-- Witness for C5 at a concrete one-file upload. -/
theorem askWithFiles_no_key_extraction_only_witness :
    askWithFiles ⟨none⟩ [⟨"a.txt", [104, 105], .err "e", .err "e", .err "e"⟩] "q" (.err "net") =
      .success
        { extracted :=
            combinedOf (partsOf [⟨"a.txt", [104, 105], .err "e", .err "e", .err "e"⟩]),
          answer := none,
          files :=
            (partsOf [⟨"a.txt", [104, 105], .err "e", .err "e", .err "e"⟩]).map summarize,
          error := none } none :=
  askWithFiles_no_key_extraction_only ⟨none⟩
    [⟨"a.txt", [104, 105], .err "e", .err "e", .err "e"⟩] "q" (.err "net") (by decide) (by decide)

/-- C7 counterexample: a record whose text is a single space is non-empty,
yet the aggregated context is empty — the claimed iff fails as stated. -/
theorem combined_empty_iff_counterexample :
    combinedOf [⟨"a", "txt", " ", 1, none⟩] = "" ∧
      (⟨"a", "txt", " ", 1, none⟩ : FilePart).text ≠ "" := by
  decide

/-- C7 (amended): the aggregated context text is empty iff every record's
text is whitespace-only (trims to the empty string); records whose text is
non-empty but all-whitespace are excluded from aggregation. -/
theorem combined_empty_iff_all_whitespace (ps : List FilePart) :
    combinedOf ps = "" ↔ ∀ p ∈ ps, jsTrim p.text = "" :=
  combinedOf_eq_empty_iff ps

/-- C9: the concrete `.txt` scenario — one 11-byte `hello world` upload, no
credential — produces exactly the specified response. -/
theorem txt_scenario_exact_response :
    askWithFiles ⟨none⟩
      [⟨"file.txt", [104, 101, 108, 108, 111, 32, 119, 111, 114, 108, 100],
        .err "u", .err "u", .err "u"⟩]
      "what does this say?" (.ok none) =
      .success
        { extracted := "--- file.txt (txt) ---\nhello world", answer := none,
          files := [⟨"file.txt", "txt", 11, 11, none⟩], error := none } none := by
  decide

/-- C2 counterexample: a valid PDF whose parse succeeds with zero text — the
per-file record's `error` field IS populated (with the scanned-PDF info
string), contrary to the claim that it is never populated; the record also
has no `isScanned` field at all. -/
theorem scanned_pdf_error_populated_counterexample :
    (processFile ⟨"scan.pdf", [0x25, 0x50, 0x44, 0x46], .ok "" 3, .err "u", .err "u"⟩).1.error ≠
        none ∧
      (processFile ⟨"scan.pdf", [0x25, 0x50, 0x44, 0x46], .ok "" 3, .err "u", .err "u"⟩).1.error =
        some scannedPdfInfo ∧
      (processFile ⟨"scan.pdf", [0x25, 0x50, 0x44, 0x46], .ok "" 3, .err "u", .err "u"⟩).1.text =
        "" := by
  decide

/-- C2 (amended): a PDF whose parse succeeds with zero extractable text is
not treated as a thrown extraction error — `extractTextFromPdf` returns
normally with `isScanned = true`, empty text and the human-readable
diagnostic `info` — but the orchestrator then copies that diagnostic into
the per-file record's `error` field, so the record has empty text and a
populated `error` equal to the diagnostic. -/
theorem scanned_pdf_diagnostic (f : UploadedFile) (n : Nat)
    (hext : extOf f.name = "pdf") (hbuf : f.buffer ≠ [])
    (hsig : hasPdfSignature f.buffer = true) (hparse : f.pdf = .ok "" n) :
    extractTextFromPdf f.buffer f.pdf =
        .ok { text := "", isScanned := true, pages := n, info := some scannedPdfInfo } ∧
      (processFile f).1.text = "" ∧
      (processFile f).1.error = some scannedPdfInfo := by
  have hlen : ¬ f.buffer.length = 0 := by
    cases hb : f.buffer with
    | nil => exact absurd hb hbuf
    | cons a l => simp
  have hpdf : extractTextFromPdf f.buffer f.pdf =
      .ok { text := "", isScanned := true, pages := n, info := some scannedPdfInfo } := by
    unfold extractTextFromPdf
    rw [hparse, if_neg hlen, if_neg (by rw [hsig]; exact fun h => h rfl)]
    rfl
  have hproc : processFile f =
      (⟨f.name, extOf f.name, "", f.buffer.length, some scannedPdfInfo⟩, none) := by
    simp only [processFile]
    rw [if_pos hext, hpdf]
    rfl
  exact ⟨hpdf, by rw [hproc], by rw [hproc]⟩

/-- Witness for C2 (amended) at a concrete scanned PDF. -/
theorem scanned_pdf_diagnostic_witness :
    extractTextFromPdf
        (⟨"s.pdf", [0x25, 0x50, 0x44, 0x46, 0x31], .ok "" 2, .err "u", .err "u"⟩ :
          UploadedFile).buffer
        (⟨"s.pdf", [0x25, 0x50, 0x44, 0x46, 0x31], .ok "" 2, .err "u", .err "u"⟩ :
          UploadedFile).pdf =
        .ok { text := "", isScanned := true, pages := 2, info := some scannedPdfInfo } ∧
      (processFile ⟨"s.pdf", [0x25, 0x50, 0x44, 0x46, 0x31], .ok "" 2, .err "u", .err "u"⟩).1.text =
        "" ∧
      (processFile
            ⟨"s.pdf", [0x25, 0x50, 0x44, 0x46, 0x31], .ok "" 2, .err "u", .err "u"⟩).1.error =
        some scannedPdfInfo :=
  scanned_pdf_diagnostic ⟨"s.pdf", [0x25, 0x50, 0x44, 0x46, 0x31], .ok "" 2, .err "u", .err "u"⟩
    2 (by decide) (by decide) (by decide) (by decide)

/-- C4: the OCR fallback chain is total — with no hosted credential it goes
straight to the local engine (the result does not consult the hosted
oracle); on hosted transport error / malformed JSON, an absent or empty
`ParsedResults`, or a whitespace-only joined parse, it returns the local
engine's result; and the local engine itself returns its text on success and
`""` on failure, never raising. -/
theorem extractText_fallback_chain (buf : Bytes) (fn k : String)
    (hosted : ExtResult OcrSpaceResponse) (tess : TessOutcome) :
    (extractText none buf fn hosted tess = tesseractOcr tess) ∧
    (∀ e, hosted = .err e → extractText (some k) buf fn hosted tess = tesseractOcr tess) ∧
    (∀ resp, hosted = .ok resp → resp.ParsedResults = none →
      extractText (some k) buf fn hosted tess = tesseractOcr tess) ∧
    (∀ resp, hosted = .ok resp → resp.ParsedResults = some [] →
      extractText (some k) buf fn hosted tess = tesseractOcr tess) ∧
    (∀ resp l, hosted = .ok resp → resp.ParsedResults = some l →
      jsTrim (jsJoin "\n" l) = "" →
      extractText (some k) buf fn hosted tess = tesseractOcr tess) ∧
    (∀ t, tess = .ok t → tesseractOcr tess = t) ∧
    (∀ m, tess = .err m → tesseractOcr tess = "") := by
  refine ⟨rfl, ?_, ?_, ?_, ?_, ?_, ?_⟩
  · rintro e rfl; rfl
  · rintro resp rfl hn
    simp only [extractText]
    rw [hn]
  · rintro resp rfl hs
    simp only [extractText]
    rw [hs]
  · rintro resp l rfl hs htrim
    cases l with
    | nil => simp only [extractText]; rw [hs]
    | cons a as =>
      have hcond : ¬ (jsJoin "\n" (a :: as) ≠ "" ∧ (jsTrim (jsJoin "\n" (a :: as))).length > 0) := by
        rw [htrim]
        rintro ⟨-, h2⟩
        exact absurd h2 (by decide)
      simp only [extractText]
      rw [hs]
      exact if_neg hcond
  · rintro t rfl; rfl
  · rintro m rfl; rfl

/-- Witness for C4: hosted transport failure falls back to the local engine,
exercised at concrete inputs. -/
theorem extractText_fallback_chain_witness :
    ((.err "boom" : ExtResult OcrSpaceResponse) = .err "boom") ∧
      extractText (some "k") [] "f" (.err "boom") (.ok "local") = tesseractOcr (.ok "local") :=
  ⟨rfl, (extractText_fallback_chain [] "f" "k" (.err "boom") (.ok "local")).2.1 "boom" rfl⟩

/-- C6: every retained record contributes the segment formed of a header
naming the file and its extension followed by the record's text truncated to
at most 20,000 characters, and the aggregated context is the blank-line join
of exactly these segments. -/
theorem aggregated_segment_truncated (ps : List FilePart) (p : FilePart)
    (hp : p ∈ ps.filter keepPart) :
    ∃ seg ∈ (ps.filter keepPart).map segmentOf,
      seg = headerOf p ++ jsSlice p.text 20000 ∧
        (jsSlice p.text 20000).length ≤ 20000 ∧
        combinedOf ps = jsJoin "\n\n" ((ps.filter keepPart).map segmentOf) := by
  refine ⟨segmentOf p, List.mem_map_of_mem segmentOf hp, rfl, ?_, rfl⟩
  show (p.text.data.take 20000).length ≤ 20000
  rw [List.length_take]
  exact Nat.min_le_left _ _

/-- Witness for C6 at a concrete retained record. -/
theorem aggregated_segment_truncated_witness :
    ∃ seg ∈
        ([⟨"a.txt", "txt", "hello", 5, none⟩] : List FilePart).filter keepPart |>.map segmentOf,
      seg = headerOf ⟨"a.txt", "txt", "hello", 5, none⟩ ++
          jsSlice (FilePart.text ⟨"a.txt", "txt", "hello", 5, none⟩) 20000 ∧
        (jsSlice (FilePart.text ⟨"a.txt", "txt", "hello", 5, none⟩) 20000).length ≤ 20000 ∧
        combinedOf [⟨"a.txt", "txt", "hello", 5, none⟩] =
          jsJoin "\n\n"
            ((([⟨"a.txt", "txt", "hello", 5, none⟩] : List FilePart).filter keepPart).map
              segmentOf) :=
  aggregated_segment_truncated [⟨"a.txt", "txt", "hello", 5, none⟩]
    ⟨"a.txt", "txt", "hello", 5, none⟩ (by decide)

/-- C3 counterexample.  (a) With no credential configured, a file yielding
empty text and no image gets `answer = null`, not a synthesized diagnostic —
the credential check precedes the no-content check.  (b) With a credential,
the diagnostic path runs but its file-analysis line renders the literal
`undefined` where the claim promises the file's type, because the source
reads `p.type` while the records store the extension under `ext`. -/
theorem no_content_diagnostic_counterexample :
    (askWithFiles ⟨none⟩ [⟨"a.bin", [0], .err "u", .err "u", .err "u"⟩] "q" (.ok none) =
        .success ⟨"", none, [⟨"a.bin", "bin", 1, 0, none⟩], none⟩ none) ∧
      (askWithFiles ⟨some "k"⟩ [⟨"a.bin", [0], .err "u", .err "u", .err "u"⟩] "q" (.ok none) =
        .success
          ⟨"",
            some
              "I couldn\x27t extract any readable content from the uploaded files. This might be because:\n\n1. **Scanned PDF**: The PDF contains images/scans rather than selectable text\n2. **Encrypted PDF**: The PDF is password protected or encrypted\n3. **Corrupted file**: The file may be damaged\n4. **Unsupported format**: The file format isn\x27t supported for text extraction\n\nFile analysis:\n• a.bin (undefined, 0.0KB): No text found\n\nFor scanned PDFs, you might need to use OCR (Optical Character Recognition) tools to extract the text first.",
            [⟨"a.bin", "bin", 1, 0, none⟩],
            some
              "No content could be extracted from the uploaded files. Details: a.bin: Unknown error"⟩
          none) := by
  decide

/-- C3 (amended): when a Gemini credential IS configured, every file yields
empty text and no image part exists, the handler does not call the external
service and returns the synthesized diagnostic answer (non-null), which
enumerates every file's name, size and recorded error (or `No text found`) —
with the type slot rendered as the literal `undefined`. -/
theorem no_content_diagnostic (cfg : Config) (k : String) (files : List UploadedFile)
    (question : String) (gemini : GeminiOutcome)
    (hkey : cfg.geminiKey = some k) (hne : files ≠ [])
    (htext : ∀ f ∈ files, (processFile f).1.text = "")
    (himg : ∀ f ∈ files, (processFile f).2 = none) :
    askWithFiles cfg files question gemini =
        .success
          { extracted := "", answer := some (noContentAnswer (partsOf files)),
            files := (partsOf files).map summarize,
            error := some ("No content could be extracted from the uploaded files. Details: "
              ++ errorDetailsOf (partsOf files)) } none ∧
      some (noContentAnswer (partsOf files)) ≠ (none : Option String) := by
  have hcomb : combinedOf (partsOf files) = "" := by
    rw [combinedOf_eq_empty_iff]
    intro p hp
    unfold partsOf at hp
    rw [List.map_map] at hp
    obtain ⟨f, hf, rfl⟩ := List.mem_map.mp hp
    have ht := htext f hf
    simp only [Function.comp] at ht ⊢
    rw [ht]
    rfl
  have himgs : imagePartsOf files = [] := by
    unfold imagePartsOf
    rw [List.filterMap_map, List.filterMap_eq_nil_iff]
    intro f hf
    simpa using himg f hf
  have hnc : hasContentOf (combinedOf (partsOf files)) (imagePartsOf files) = false := by
    rw [hcomb, himgs]
    decide
  have h0 : ¬ files.length = 0 := fun h => hne (List.length_eq_zero.mp h)
  constructor
  · unfold askWithFiles
    rw [if_neg h0, hkey]
    simp only [hnc]
    rw [if_neg (fun h => Bool.noConfusion h)]
    simp [baseResponse, hcomb]
  · exact fun h => Option.noConfusion h

/-- Witness for C3 (amended) at a concrete one-file upload. -/
theorem no_content_diagnostic_witness :
    ((⟨some "k"⟩ : Config).geminiKey = some "k") ∧
      askWithFiles ⟨some "k"⟩ [⟨"a.bin", [0], .err "u", .err "u", .err "u"⟩] "q" (.ok none) =
          .success
            { extracted := "",
              answer :=
                some (noContentAnswer (partsOf [⟨"a.bin", [0], .err "u", .err "u", .err "u"⟩])),
              files :=
                (partsOf [⟨"a.bin", [0], .err "u", .err "u", .err "u"⟩]).map summarize,
              error :=
                some ("No content could be extracted from the uploaded files. Details: "
                  ++ errorDetailsOf (partsOf [⟨"a.bin", [0], .err "u", .err "u", .err "u"⟩])) }
            none ∧
        some (noContentAnswer (partsOf [⟨"a.bin", [0], .err "u", .err "u", .err "u"⟩])) ≠
          (none : Option String) :=
  ⟨rfl,
    no_content_diagnostic ⟨some "k"⟩ "k" [⟨"a.bin", [0], .err "u", .err "u", .err "u"⟩] "q"
      (.ok none) rfl (by decide) (by decide) (by decide)⟩

/-- C8: a `.pdf` file whose buffer is empty or lacks the `%PDF` signature
gets a populated error and empty text (`textLength = 0`), and the request
keeps processing: the handler still emits one summary per file, with this
file's summary at its input position. -/
theorem invalid_pdf_error_isolated (f : UploadedFile)
    (hext : extOf f.name = "pdf")
    (hbad : f.buffer = [] ∨ hasPdfSignature f.buffer = false) :
    (processFile f).1.text = "" ∧
      (processFile f).1.error ≠ none ∧
      (summarize (processFile f).1).textLength = 0 ∧
      (summarize (processFile f).1).error ≠ none ∧
      ∀ cfg pre post question gemini r req,
        askWithFiles cfg (pre ++ f :: post) question gemini = .success r req →
        r.files.length = pre.length + 1 + post.length ∧
          r.files[pre.length]? = some (summarize (processFile f).1) := by
  obtain ⟨m, hm, hmne⟩ : ∃ m, extractTextFromPdf f.buffer f.pdf = .err m ∧ m ≠ "" := by
    by_cases hl : f.buffer.length = 0
    · refine ⟨"PDF parsing failed: Empty or invalid buffer", ?_, by decide⟩
      unfold extractTextFromPdf
      rw [if_pos hl]
    · rcases hbad with hb | hs
      · exact absurd (by rw [hb]; rfl) hl
      · refine
          ⟨"PDF parsing failed: File does not appear to be a valid PDF (missing %PDF header)",
            ?_, by decide⟩
        unfold extractTextFromPdf
        rw [if_neg hl, if_pos (by rw [hs]; exact fun h => Bool.noConfusion h)]
  have hproc : processFile f =
      (⟨f.name, extOf f.name, "", f.buffer.length, some m⟩, none) := by
    simp only [processFile]
    rw [if_pos hext, hm]
  have hsumm : summarize (⟨f.name, extOf f.name, "", f.buffer.length, some m⟩ : FilePart) =
      ⟨f.name, extOf f.name, f.buffer.length, 0, some m⟩ := by
    simp [summarize, jsOrNull, hmne]
  refine ⟨by rw [hproc], by rw [hproc]; exact fun h => Option.noConfusion h, ?_, ?_, ?_⟩
  · rw [hproc, hsumm]
  · rw [hproc, hsumm]
    exact fun h => Option.noConfusion h
  · intro cfg pre post question gemini r req hsucc
    have hfiles := files_of_success _ _ _ _ _ _ hsucc
    constructor
    · rw [hfiles, List.length_map, List.length_append, List.length_cons]
      omega
    · rw [hfiles, List.map_append, List.map_cons]
      rw [List.getElem?_append_right (by simp)]
      simp

/-- Witness for C8 at a concrete signature-less PDF upload. -/
theorem invalid_pdf_error_isolated_witness :
    (extOf "bad.pdf" = "pdf") ∧
      (hasPdfSignature [1, 2, 3, 4] = false) ∧
      (processFile ⟨"bad.pdf", [1, 2, 3, 4], .ok "x" 0, .err "u", .err "u"⟩).1.text = "" ∧
      (processFile ⟨"bad.pdf", [1, 2, 3, 4], .ok "x" 0, .err "u", .err "u"⟩).1.error ≠ none :=
  ⟨by decide, by decide,
    (invalid_pdf_error_isolated ⟨"bad.pdf", [1, 2, 3, 4], .ok "x" 0, .err "u", .err "u"⟩
        (by decide) (Or.inr (by decide))).1,
    (invalid_pdf_error_isolated ⟨"bad.pdf", [1, 2, 3, 4], .ok "x" 0, .err "u", .err "u"⟩
        (by decide) (Or.inr (by decide))).2.1⟩

/-- C10: an uploaded file classified as an image always records the
non-empty placeholder marker text, so the aggregated context trims to a
non-empty string and the image-only prompt mode is never selected. -/
theorem image_upload_never_image_only (files : List UploadedFile) (f : UploadedFile)
    (hf : f ∈ files) (himg : imageExts.contains (extOf f.name) = true) :
    (processFile f).1.text = imagePlaceholder f.name ∧
      jsTrim (combinedOf (partsOf files)) ≠ "" ∧
      promptModeOf (imagePartsOf files) (combinedOf (partsOf files)) ≠ .imageOnly := by
  have h1 : ¬ extOf f.name = "pdf" := fun h => by
    rw [h] at himg; exact absurd himg (by decide)
  have h2 : ¬ extOf f.name = "docx" := fun h => by
    rw [h] at himg; exact absurd himg (by decide)
  have h3 : ¬ extOf f.name = "xlsx" := fun h => by
    rw [h] at himg; exact absurd himg (by decide)
  have h4 : ¬ (extOf f.name = "txt" ∨ extOf f.name = "html") := by
    rintro (h | h) <;> rw [h] at himg <;> exact absurd himg (by decide)
  have hproc : (processFile f).1.text = imagePlaceholder f.name := by
    simp only [processFile]
    rw [if_neg h1, if_neg h2, if_neg h3, if_neg h4, if_pos himg]
  have htrimpart : jsTrim (imagePlaceholder f.name) ≠ "" := by
    intro h
    have hmem : '[' ∈ (imagePlaceholder f.name).data := by
      simp only [imagePlaceholder, String.data_append, List.mem_append]
      exact Or.inl (Or.inl (by decide))
    exact absurd ((jsTrim_eq_empty_iff _).mp h '[' hmem) (by decide)
  have hp : (processFile f).1 ∈ partsOf files := by
    unfold partsOf
    exact List.mem_map_of_mem Prod.fst (List.mem_map_of_mem processFile hf)
  have hcomb : jsTrim (combinedOf (partsOf files)) ≠ "" :=
    jsTrim_combinedOf_ne_empty _ _ hp (by rw [hproc]; exact htrimpart)
  refine ⟨hproc, hcomb, ?_⟩
  have hb : (jsTrim (combinedOf (partsOf files)) == "") = false :=
    beq_eq_false_iff_ne.mpr hcomb
  unfold promptModeOf
  rw [hb]
  simp only [Bool.and_false, Bool.not_false, Bool.and_true]
  rw [if_neg (fun h => Bool.noConfusion h)]
  split
  · exact fun h => PromptMode.noConfusion h
  · split
    · exact fun h => PromptMode.noConfusion h
    · exact fun h => PromptMode.noConfusion h

/-- Witness for C10 at a concrete one-image upload. -/
theorem image_upload_never_image_only_witness :
    ((⟨"cat.jpg", [1], .err "u", .err "u", .err "u"⟩ : UploadedFile) ∈
        [(⟨"cat.jpg", [1], .err "u", .err "u", .err "u"⟩ : UploadedFile)]) ∧
      (imageExts.contains (extOf "cat.jpg") = true) ∧
      (processFile ⟨"cat.jpg", [1], .err "u", .err "u", .err "u"⟩).1.text =
          imagePlaceholder "cat.jpg" ∧
        jsTrim (combinedOf (partsOf [⟨"cat.jpg", [1], .err "u", .err "u", .err "u"⟩])) ≠ "" ∧
        promptModeOf (imagePartsOf [⟨"cat.jpg", [1], .err "u", .err "u", .err "u"⟩])
            (combinedOf (partsOf [⟨"cat.jpg", [1], .err "u", .err "u", .err "u"⟩])) ≠
          .imageOnly :=
  ⟨by decide, by decide,
    image_upload_never_image_only [⟨"cat.jpg", [1], .err "u", .err "u", .err "u"⟩]
      ⟨"cat.jpg", [1], .err "u", .err "u", .err "u"⟩ (by decide) (by decide)⟩
